import Mathlib

/-!
Shallow embedding of the consolidation engine in src/dedupe.py.

The embedded fragment covers the core described by the specification:
the state store helpers (db_initialize is plumbing and not modelled,
update_state_db, load_processed_files), the physical path resolver
(get_physical_path), the link step (link_file) and the orchestrating
run (run_deduplication: recovery pass followed by the main pass).

Modelling conventions:
* Logical (union-view) paths and physical paths are strings.  The
  resolution performed by os.path.realpath on the union mount is an
  oracle function of the environment, fixed for the run.
* The physical filesystem is an association list from physical path to
  inode number.  os.remove on a logical path removes the physical file
  the oracle resolves it to, and raises FileNotFoundError when that
  physical path is absent; os.link adds an entry carrying the inode of
  the source and raises when the source is absent or the target is
  present.  Directory creation (mkdir with parents and exist_ok) is
  recorded in a list of ensured directories; parent directories are
  left implicit.
* The sqlite state store is an association list from filepath to
  status string, with INSERT OR REPLACE semantics.  Fault injection
  oracles in the environment make a read of the whole store fail
  (load_processed_files catches sqlite3.Error, logs and returns what
  it has, namely the empty mapping when the connection fails) or make
  the n-th write fail (update_state_db catches sqlite3.Error and only
  logs it).  The trace field of the state is a history variable
  recording every committed state-store write in order; the code has
  no such field, it exists only so that theorems can speak about the
  sequence of statuses durably recorded for a path.
* Log output is a list of message strings, appended in program order.
* Fatal precondition handling before run_deduplication (dependency
  check, manifest readability, root directory checks, db_initialize)
  is plumbing that exits the process; the embedding starts from a
  parsed manifest, as run_deduplication does after its load succeeds.
-/

namespace Dedupe

/-- Python exceptions relevant to the embedded fragment. -/
inductive PyError where
  | attributeError
  | valueError
  | fileExists
  | fileNotFound
deriving DecidableEq

/-- Environment fixed for a run: the realpath oracle of the union
mount, the listing of the pool root (os.listdir order) with its isdir
predicate, and the fault oracles for the sqlite state store. -/
structure Env where
  realpath : String → String
  poolEntries : List String
  isdir : String → Bool
  readFails : Bool
  writeFails : Nat → Bool

/-- The command line arguments consumed by run_deduplication, with the
manifest already parsed: matchSets lists, for each duplicate set, the
filePath fields of its files in manifest order. -/
structure Args where
  matchSets : List (List String)
  primary_path : String
  pool_root : String
  perform_actions : Bool

/-- World state threaded through the run: physical filesystem, ensured
directories, state store contents, log, write history (trace) and the
count of attempted state-store writes (used by the fault oracle). -/
structure Sys where
  fs : List (String × Nat)
  dirs : List String
  db : List (String × String)
  log : List String
  trace : List (String × String)
  writeCount : Nat

/-- os.path.join for the shapes used by the script (second component
relative, first without trailing slash). -/
def pyJoin (a b : String) : String := a ++ "/" ++ b

/-- Splitting a character list at a separator (the behaviour of
str.split for a one-character separator, here always the slash).
Structural recursion so that proofs can evaluate it in the kernel. -/
def splitAux (sep : Char) : List Char → List Char → List (List Char)
  | [], acc => [acc.reverse]
  | c :: t, acc =>
    if c = sep then acc.reverse :: splitAux sep t []
    else splitAux sep t (c :: acc)

/-- Components of a path string, split at the slashes (an absolute
path yields a leading empty component, as str.split does). -/
def pathComponents (p : String) : List String :=
  (splitAux '/' p.data []).map String.mk

/-- Joining components back with slashes. -/
def joinComponents : List String → String
  | [] => ""
  | [c] => c
  | c :: rest => c ++ "/" ++ joinComponents rest

/-- Component-wise prefix test on component lists. -/
def componentsPrefix : List String → List String → Bool
  | [], _ => true
  | _ :: _, [] => false
  | a :: as, b :: bs => if a = b then componentsPrefix as bs else false

/-- Path.parent and os.path.dirname for absolute normalized paths. -/
def dirname (p : String) : String :=
  let d := joinComponents (pathComponents p).dropLast
  if d = "" then "/" else d

/-- os.path.basename for paths without trailing slash. -/
def basename (p : String) : String := (pathComponents p).getLastD ""

/-- Path(p).relative_to(base): the remaining components joined when
base is a component-wise prefix of p, otherwise none (the code path
where Path.relative_to raises ValueError). -/
def relative_to (p base : String) : Option String :=
  let pc := pathComponents p
  let bc := pathComponents base
  if componentsPrefix bc pc then some (joinComponents (pc.drop bc.length)) else none

/-- Character-list prefix test, structural recursion. -/
def charsPrefix : List Char → List Char → Bool
  | [], _ => true
  | _ :: _, [] => false
  | a :: as, b :: bs => if a = b then charsPrefix as bs else false

/-- str.startswith: plain string prefix test, no separator boundary. -/
def startswith (s pre : String) : Bool := charsPrefix pre.data s.data

/-- Lookup of a physical path in the filesystem association list. -/
def fsLookup : List (String × Nat) → String → Option Nat
  | [], _ => none
  | e :: t, p => if e.1 = p then some e.2 else fsLookup t p

/-- Removal of a physical path from the filesystem. -/
def fsRemove (fs : List (String × Nat)) (p : String) : List (String × Nat) :=
  fs.filter (fun e => e.1 ≠ p)

/-- Lookup in the state store (and in the dict loaded from it). -/
def dbLookup : List (String × String) → String → Option String
  | [], _ => none
  | e :: t, p => if e.1 = p then some e.2 else dbLookup t p

/-- INSERT OR REPLACE INTO processed_files: replace the existing row
for the path, or append a new row. -/
def dbUpsert (db : List (String × String)) (p s : String) : List (String × String) :=
  if (dbLookup db p).isSome then
    db.map (fun e => if e.1 = p then (p, s) else e)
  else db ++ [(p, s)]

/-- update_state_db (src/dedupe.py lines 78-85): attempts the upsert
and commit; a sqlite3.Error is caught and logged, nothing is signalled
to the caller.  The attempted-write counter feeds the fault oracle. -/
def update_state_db (env : Env) (sys : Sys) (filepath status : String) : Sys :=
  if env.writeFails sys.writeCount then
    { sys with
      log := sys.log ++ ["Could not write to state database: sqlite3.Error"],
      writeCount := sys.writeCount + 1 }
  else
    { sys with
      db := dbUpsert sys.db filepath status,
      trace := sys.trace ++ [(filepath, status)],
      writeCount := sys.writeCount + 1 }

/-- load_processed_files (lines 65-76): reads all rows; on
sqlite3.Error it logs and returns the mapping built so far (the empty
mapping for a connection-time failure, the case modelled here). -/
def load_processed_files (env : Env) (sys : Sys) : List (String × String) × Sys :=
  if env.readFails then
    ([], { sys with
      log := sys.log ++ ["Could not read state from database: sqlite3.Error"] })
  else (sys.db, sys)

/-- get_physical_path (lines 87-98): realpath the union path, then
return the first listdir entry of the pool root that is a directory
and is a plain string prefix of the resolved path, paired with the
resolved path; none when no entry matches.  The pool root is assumed
listable (checked before run_deduplication), so the exception branch
that logs a warning and returns none is not reachable here. -/
def get_physical_path (env : Env) (mergerfs_path pool_root : String) :
    Option (String × String) :=
  let physical_path := env.realpath mergerfs_path
  (env.poolEntries.find? (fun disk =>
      env.isdir (pyJoin pool_root disk) &&
      startswith physical_path (pyJoin pool_root disk))).map
    (fun disk => (physical_path, pyJoin pool_root disk))

/-- link_file (lines 100-113): compute the link target from the
physical disk root of the MASTER and the duplicate path taken relative
to the parent of the primary path, ensure the target directory, then
os.link from the master physical path and record LINKED.  Any raised
error is returned to the caller together with the state reached so far
(logs and directory creation precede the failing link call).  The
os.link model reports a missing source before an existing target. -/
def link_file (env : Env) (sys : Sys)
    (master_physical_path physical_disk_root dup_file primary_path : String) :
    Sys × Option PyError :=
  let mergerfs_base := dirname primary_path
  match relative_to (dirname dup_file) mergerfs_base with
  | none => (sys, some PyError.valueError)
  | some relative_dup_dir =>
    let link_target_dir := pyJoin physical_disk_root relative_dup_dir
    let link_target_path := pyJoin link_target_dir (basename dup_file)
    let sys1 := { sys with
      log := sys.log ++ ["    - Ensuring directory exists: " ++ link_target_dir],
      dirs := if link_target_dir ∈ sys.dirs then sys.dirs
              else sys.dirs ++ [link_target_dir] }
    let sys2 := { sys1 with
      log := sys1.log ++ ["    - Creating hardlink at: " ++ link_target_path] }
    match fsLookup sys2.fs master_physical_path with
    | none => (sys2, some PyError.fileNotFound)
    | some ino =>
      if (fsLookup sys2.fs link_target_path).isSome then
        (sys2, some PyError.fileExists)
      else
        let sys3 := { sys2 with fs := sys2.fs ++ [(link_target_path, ino)] }
        let sys4 := update_state_db env sys3 dup_file "LINKED"
        ({ sys4 with log := sys4.log ++ ["    - SUCCESS! Linked " ++ dup_file] }, none)

/-- The dict comprehension of line 129: filePath to owning set, later
sets overwriting earlier ones. -/
def file_to_set_map (matchSets : List (List String)) (p : String) :
    Option (List String) :=
  matchSets.foldl (fun acc s => if p ∈ s then some s else acc) none

/-- Master selection of the main pass (line 176): first member of the
set, in manifest order, of which the primary path is a string prefix. -/
def chooseMaster (files : List String) (primary_path : String) : Option String :=
  files.find? (fun f => startswith f primary_path)

/-- Master selection of the recovery pass (line 149).  The generator
there tests f.startswith where f is the manifest record (a dict), not
its filePath string; on the first element this raises AttributeError,
which next propagates.  Only an empty files list reaches the default
None. -/
def recovery_master_select (files : List String) : Except PyError (Option String) :=
  match files with
  | [] => Except.ok none
  | _ :: _ => Except.error PyError.attributeError

/-- Recovery handling of one PENDING or DELETED entry (lines 142-166).
Returns the new state and, when an exception escapes the loop body
(the AttributeError of recovery_master_select), that exception. -/
def recoverOne (env : Env) (args : Args) (sys : Sys) (dup_file : String) :
    Sys × Option PyError :=
  let sys := { sys with
    log := sys.log ++ ["Attempting to recover failed link for: " ++ dup_file] }
  match file_to_set_map args.matchSets dup_file with
  | none =>
    ({ sys with log := sys.log ++
        ["  - Could not find " ++ dup_file ++ " in the manifest. Cannot recover."] },
     none)
  | some match_set =>
    match recovery_master_select match_set with
    | Except.error e => (sys, some e)
    | Except.ok none =>
      ({ sys with log := sys.log ++
          ["  - Could not find a master file for " ++ dup_file ++ ". Cannot recover."] },
       none)
    | Except.ok (some master_file) =>
      match get_physical_path env master_file args.pool_root with
      | none =>
        ({ sys with log := sys.log ++
            ["  - FATAL: Could not determine physical path for master " ++
             master_file ++ ". Cannot recover."] },
         none)
      | some pr =>
        if args.perform_actions then
          let res := link_file env sys pr.1 pr.2 dup_file args.primary_path
          if res.2.isSome then
            ({ res.1 with log := res.1.log ++
                ["  - FAILED to recover link for " ++ dup_file ++ "."] },
             none)
          else (res.1, none)
        else
          ({ sys with log := sys.log ++
              ["  - [Dry Run] Would recover link for " ++ dup_file] },
           none)

/-- The recovery loop over the entries needing recovery, in state
store order; an exception escaping one iteration aborts the loop. -/
def recoveryLoop (env : Env) (args : Args) :
    Sys → List String → Sys × Option PyError
  | sys, [] => (sys, none)
  | sys, d :: rest =>
    let r := recoverOne env args sys d
    if r.2.isSome then r
    else recoveryLoop env args r.1 rest

/-- Main pass handling of one member of a duplicate set
(lines 188-214), given the chosen master and its physical location.
The FileNotFoundError branch of os.remove retries only the link. -/
def processDup (env : Env) (args : Args) (sys : Sys)
    (processed_files : List (String × String))
    (master_file master_physical_path physical_disk_root dup_file : String) : Sys :=
  if dup_file = master_file || dbLookup processed_files dup_file = some "LINKED" then
    sys
  else
    let sys := { sys with log := sys.log ++ ["  - Found duplicate: " ++ dup_file] }
    if args.perform_actions then
      let sys := update_state_db env sys dup_file "PENDING"
      let sys := { sys with log := sys.log ++ ["    - Deleting: " ++ dup_file] }
      let phys := env.realpath dup_file
      if (fsLookup sys.fs phys).isSome then
        let sys := { sys with fs := fsRemove sys.fs phys }
        let sys := update_state_db env sys dup_file "DELETED"
        let res := link_file env sys master_physical_path physical_disk_root
          dup_file args.primary_path
        if res.2.isSome then
          { res.1 with log := res.1.log ++
              ["    - FAILED to process " ++ dup_file ++ "."] }
        else res.1
      else
        let sys := { sys with log := sys.log ++
            ["    - File not found for deletion (already gone?): " ++ dup_file ++
             ". Attempting to link."] }
        let res := link_file env sys master_physical_path physical_disk_root
          dup_file args.primary_path
        if res.2.isSome then
          { res.1 with log := res.1.log ++
              ["    - FAILED to process " ++ dup_file ++ " after FileNotFoundError."] }
        else res.1
    else
      { sys with log := sys.log ++
          ["    - Would delete: " ++ dup_file,
           "    - Would create hardlink from " ++ master_physical_path] }

/-- Main pass handling of one duplicate set (lines 174-214): choose
the master, resolve it, then process every member in manifest order.
A set without a master is skipped with no log message. -/
def processGroup (env : Env) (args : Args) (sys : Sys)
    (processed_files : List (String × String)) (match_set : List String) : Sys :=
  match chooseMaster match_set args.primary_path with
  | none => sys
  | some master_file =>
    let sys := { sys with
      log := sys.log ++ ["Processing set for master: " ++ master_file] }
    match get_physical_path env master_file args.pool_root with
    | none =>
      { sys with log := sys.log ++
          ["    - FATAL: Could not determine physical path for master " ++
           master_file ++ ". Skipping set."] }
    | some pr =>
      match_set.foldl
        (fun sys dup_file =>
          processDup env args sys processed_files master_file pr.1 pr.2 dup_file)
        sys

/-- The refresh and main processing loop (lines 168-214). -/
def mainAfterRecovery (env : Env) (args : Args) (sys : Sys) : Sys × Bool :=
  let sys := { sys with
    log := sys.log ++ ["Refreshing file status after recovery check..."] }
  let lp := load_processed_files env sys
  let processed_files := lp.1
  let sys := { lp.2 with
    log := lp.2.log ++ ["--- Starting to process " ++
      toString args.matchSets.length ++ " duplicate sets... ---"] }
  let sys :=
    args.matchSets.foldl
      (fun sys ms => processGroup env args sys processed_files ms) sys
  ({ sys with log := sys.log ++
      ["--- Database connection closed. ---",
       "--- Deduplication script finished. ---"] },
   false)

/-- run_deduplication (lines 115-220).  The returned flag is true when
the run aborted with an uncaught exception (the AttributeError raised
in the recovery pass); the try/finally still closes the connection on
that path, then the exception propagates and the script dies. -/
def run_deduplication (env : Env) (args : Args) (sys : Sys) : Sys × Bool :=
  let sys :=
    if args.perform_actions then sys
    else { sys with log := sys.log ++
        ["--- DRY RUN MODE: No files will be deleted or linked. ---"] }
  let lp := load_processed_files env sys
  let processed_files := lp.1
  let sys := { lp.2 with
    log := lp.2.log ++ ["Loaded " ++ toString processed_files.length ++
      " entries from the state database."] }
  let sys := { sys with
    log := sys.log ++ ["--- Checking for incomplete tasks from previous runs... ---"] }
  let recovery_needed :=
    processed_files.filter (fun e => e.2 = "DELETED" || e.2 = "PENDING")
  if recovery_needed.isEmpty then
    let sys := { sys with log := sys.log ++ ["No incomplete tasks found."] }
    mainAfterRecovery env args sys
  else
    let sys := { sys with
      log := sys.log ++ ["Found " ++ toString recovery_needed.length ++
        " files needing recovery."] }
    let rl := recoveryLoop env args sys (recovery_needed.map (fun e => e.1))
    if rl.2.isSome then
      ({ rl.1 with log := rl.1.log ++ ["--- Database connection closed. ---"] }, true)
    else mainAfterRecovery env args rl.1

/-- Sequence of statuses durably recorded for a path during the run,
read off the write history. -/
def statusTraceFor (sys : Sys) (d : String) : List String :=
  (sys.trace.filter (fun e => e.1 = d)).map (fun e => e.2)

/-- Number of occurrences of a path across all duplicate sets. -/
def occurrences (msets : List (List String)) (d : String) : Nat :=
  match msets with
  | [] => 0
  | s :: rest => s.count d + occurrences rest d

/-- Helper for strContains: does sub occur as a contiguous run of the
second list. -/
def containsAux (sub : List Char) : List Char → Bool
  | [] => sub.isEmpty
  | c :: t => charsPrefix sub (c :: t) || containsAux sub t

/-- Substring test on strings, used to state that a log contains no
message mentioning some path. -/
def strContains (line sub : String) : Bool :=
  containsAux sub.data line.data

/-- Projection of a write history onto one path: the statuses recorded
for it, in order. -/
def traceFilter (t : List (String × String)) (d : String) : List String :=
  (t.filter (fun e => e.1 = d)).map (fun e => e.2)

/-- The per-duplicate status sequences a single run can commit for a
fresh duplicate: nothing (skipped), or PENDING followed by a forward
progression that may stop early on a caught error and may omit DELETED
when the original file was already absent at delete time. -/
def allowedTraces : List (List String) :=
  [[], ["PENDING"], ["PENDING", "DELETED"],
   ["PENDING", "DELETED", "LINKED"], ["PENDING", "LINKED"]]

/-- Boolean form of: the group is fully consolidated from the point of
view of a state mapping: it has no master, or an unresolvable one, or
every non-master member is recorded LINKED. -/
def groupAllLinked (env : Env) (args : Args) (db : List (String × String))
    (ms : List String) : Bool :=
  match chooseMaster ms args.primary_path with
  | none => true
  | some m =>
    match get_physical_path env m args.pool_root with
    | none => true
    | some _ => ms.all (fun d => d = m || dbLookup db d = some "LINKED")

/-! ### Concrete scenarios

A small union layout used by the concrete theorems: the pool root
/mnt/pool holds two member disks, the union is mounted at
/mnt/storage, the primary (master) root is /mnt/storage/media.  One
duplicate set pairs a master stored on disk1 with a duplicate whose
physical file lives on disk2. -/

/-- Realpath oracle of the concrete layout. -/
def realpathA : String → String := fun p =>
  if p = "/mnt/storage/media/x/f.txt" then "/mnt/pool/disk1/media/x/f.txt"
  else if p = "/mnt/storage/other/x/f.txt" then "/mnt/pool/disk2/other/x/f.txt"
  else p

/-- Healthy environment for the concrete layout. -/
def envA : Env where
  realpath := realpathA
  poolEntries := ["disk1", "disk2"]
  isdir := fun _ => true
  readFails := false
  writeFails := fun _ => false

/-- Environment in which every state-store write raises. -/
def envW : Env := { envA with writeFails := fun _ => true }

/-- Environment in which reading the state store raises. -/
def envR : Env := { envA with readFails := true }

/-- Arguments: the one duplicate set of the concrete layout, with
actions performed. -/
def argsA : Args where
  matchSets := [["/mnt/storage/media/x/f.txt", "/mnt/storage/other/x/f.txt"]]
  primary_path := "/mnt/storage/media"
  pool_root := "/mnt/pool"
  perform_actions := true

/-- Arguments whose only duplicate set has no member under the
primary path. -/
def argsN : Args :=
  { argsA with matchSets := [["/mnt/storage/video/a.txt", "/mnt/storage/music/a.txt"]] }

/-- Initial state: both physical files present, empty state store. -/
def sysA : Sys where
  fs := [("/mnt/pool/disk1/media/x/f.txt", 1), ("/mnt/pool/disk2/other/x/f.txt", 2)]
  dirs := []
  db := []
  log := []
  trace := []
  writeCount := 0

/-- State after the crash window: the duplicate was deleted and the
store durably records DELETED for it. -/
def sysDel : Sys :=
  { sysA with
    fs := [("/mnt/pool/disk1/media/x/f.txt", 1)],
    db := [("/mnt/storage/other/x/f.txt", "DELETED")] }

/-- State interrupted earlier: PENDING recorded, file still present. -/
def sysPend : Sys :=
  { sysA with db := [("/mnt/storage/other/x/f.txt", "PENDING")] }

/-- State in which the duplicate logical path has no backing physical
file while the store has no entry for it. -/
def sysGone : Sys :=
  { sysA with fs := [("/mnt/pool/disk1/media/x/f.txt", 1)] }

/-- The state produced by a first complete, successful run. -/
def sysRun1 : Sys := (run_deduplication envA argsA sysA).1

/-- A consolidated state with a stray interrupted entry not related to
the manifest, used for the state-store read failure scenario. -/
def sysMix : Sys :=
  { sysRun1 with
    db := [("/mnt/storage/other/x/f.txt", "LINKED"),
           ("/mnt/storage/ghost.txt", "PENDING")],
    trace := [] }

/-- Environment for the prefix-matching scenario: the resolved path
lies under disk10 while disk1 is listed first. -/
def envT : Env where
  realpath := fun _ => "/mnt/pool/disk10/f.txt"
  poolEntries := ["disk1", "disk10"]
  isdir := fun _ => true
  readFails := false
  writeFails := fun _ => false

end Dedupe

namespace Dedupe

/-! ### Claim theorems: concrete, closed statements -/

/-- C1: the claim says a duplicate is deleted only after its PENDING
status is durably recorded, and that a failed checkpoint write is
surfaced and stops the delete and link for that duplicate.  The code
contradicts this: update_state_db catches the sqlite error and only
logs it, so with every state-store write failing the run still
completes normally, deletes the physical file of the duplicate and
creates the link, while the store records nothing at all. -/
theorem c1_pending_checkpoint_failure_swallowed :
    (run_deduplication envW argsA sysA).2 = false ∧
    (run_deduplication envW argsA sysA).1.trace = [] ∧
    (run_deduplication envW argsA sysA).1.db = [] ∧
    fsLookup (run_deduplication envW argsA sysA).1.fs
      (envW.realpath "/mnt/storage/other/x/f.txt") = none := by decide

/-- C2: the claim says recovery of a DELETED entry performs the link
step and ends with the entry LINKED and a hardlink present.  The code
contradicts this: the recovery master selection evaluates startswith
on the manifest record instead of its filePath string, which raises
AttributeError; the run aborts with the filesystem untouched, no write
committed and the entry still DELETED. -/
theorem c2_recovery_of_deleted_crashes :
    (run_deduplication envA argsA sysDel).2 = true ∧
    (run_deduplication envA argsA sysDel).1.fs = sysDel.fs ∧
    dbLookup (run_deduplication envA argsA sysDel).1.db
      "/mnt/storage/other/x/f.txt" = some "DELETED" ∧
    (run_deduplication envA argsA sysDel).1.trace = [] := by decide

/-- C3: the claim says recovery treats a PENDING entry like a fresh
duplicate, attempting delete-if-present and then the link.  The code
contradicts this twice over: its recovery path contains no delete call
at all, and before reaching any filesystem step it raises
AttributeError at the master selection, aborting the run with the
filesystem untouched and the entry still PENDING. -/
theorem c3_recovery_of_pending_crashes :
    (run_deduplication envA argsA sysPend).2 = true ∧
    (run_deduplication envA argsA sysPend).1.fs = sysPend.fs ∧
    dbLookup (run_deduplication envA argsA sysPend).1.db
      "/mnt/storage/other/x/f.txt" = some "PENDING" ∧
    (run_deduplication envA argsA sysPend).1.trace = [] := by decide

/-- C4 counterexample: the duplicate resolves physically to disk2, the
master to disk1.  Processing succeeds (status LINKED), the hardlink
carries the master inode, yet nothing exists at the duplicate original
physical location: the link was created under the MASTER disk root, so
the claim as stated is false. -/
theorem c4_link_not_at_original_location :
    dbLookup (run_deduplication envA argsA sysA).1.db
      "/mnt/storage/other/x/f.txt" = some "LINKED" ∧
    fsLookup (run_deduplication envA argsA sysA).1.fs
      (envA.realpath "/mnt/storage/other/x/f.txt") = none ∧
    fsLookup (run_deduplication envA argsA sysA).1.fs
      "/mnt/pool/disk1/other/x/f.txt" = some 1 := by decide

/-- C5 counterexample: when the duplicate file is already absent,
os.remove raises FileNotFoundError and the handler proceeds directly
to the link, so the committed statuses are PENDING then LINKED: the
DELETED stage is skipped, refuting never-skipping as stated. -/
theorem c5_deleted_stage_skipped :
    statusTraceFor (run_deduplication envA argsA sysGone).1
      "/mnt/storage/other/x/f.txt" = ["PENDING", "LINKED"] := by decide

/-- C6 counterexample: a second run over the state left by a first
successful run mutates nothing, but the already LINKED duplicate is
skipped silently: no message of the second run mentions it, so
explicitly-logged-as-skipped is false. -/
theorem c6_skip_not_logged :
    (run_deduplication envA argsA sysRun1).1.fs = sysRun1.fs ∧
    (run_deduplication envA argsA sysRun1).1.db = sysRun1.db ∧
    (run_deduplication envA argsA sysRun1).1.trace = sysRun1.trace ∧
    dbLookup sysRun1.db "/mnt/storage/other/x/f.txt" = some "LINKED" ∧
    ((run_deduplication envA argsA sysRun1).1.log.drop sysRun1.log.length).filter
      (fun l => strContains l "/mnt/storage/other/x/f.txt") = [] := by decide

/-- C8 counterexample: a group with no member under the master root is
skipped without any mutation and the run completes, but no log message
mentions either member of the group: the logged-diagnostic part of the
claim is false. -/
theorem c8_no_diagnostic_logged :
    (run_deduplication envA argsN sysA).2 = false ∧
    (run_deduplication envA argsN sysA).1.fs = sysA.fs ∧
    (run_deduplication envA argsN sysA).1.db = sysA.db ∧
    (run_deduplication envA argsN sysA).1.trace = [] ∧
    ((run_deduplication envA argsN sysA).1.log.filter
      (fun l => strContains l "/mnt/storage/video/a.txt" ||
                strContains l "/mnt/storage/music/a.txt")) = [] := by decide

/-- C10: master selection and physical-disk matching use plain string
prefix tests.  A path under the sibling directory /pool/primary2 is
chosen as master for master root /pool/primary, and a physical path
under disk10 is matched against the disk root of disk1. -/
theorem c10_prefix_matching :
    chooseMaster ["/pool/primary2/x.txt"] "/pool/primary" =
      some "/pool/primary2/x.txt" ∧
    get_physical_path envT "/pool/u/f.txt" "/mnt/pool" =
      some ("/mnt/pool/disk10/f.txt", "/mnt/pool/disk1") := by decide

end Dedupe

namespace Dedupe

/-! ### Helper lemmas -/

theorem statusTraceFor_eq (sys : Sys) (d : String) :
    statusTraceFor sys d = traceFilter sys.trace d := rfl

theorem traceFilter_append (t u : List (String × String)) (d : String) :
    traceFilter (t ++ u) d = traceFilter t d ++ traceFilter u d := by
  simp [traceFilter, List.filter_append]

theorem traceFilter_all_eq (u : List (String × String)) (d : String)
    (h : ∀ e ∈ u, e.1 = d) : traceFilter u d = u.map (fun e => e.2) := by
  unfold traceFilter
  congr 1
  apply List.filter_eq_self.mpr
  intro e he
  simp [h e he]

theorem traceFilter_all_ne (u : List (String × String)) (d : String)
    (h : ∀ e ∈ u, e.1 ≠ d) : traceFilter u d = [] := by
  unfold traceFilter
  rw [List.filter_eq_nil_iff.mpr]
  · rfl
  · intro e he
    simp [h e he]

theorem fsLookup_append_left (fs l : List (String × Nat)) (q : String) (i : Nat)
    (h : fsLookup fs q = some i) : fsLookup (fs ++ l) q = some i := by
  induction fs with
  | nil => simp [fsLookup] at h
  | cons e t ih =>
    by_cases he : e.1 = q
    · simp only [fsLookup, he, if_true] at h
      simp [fsLookup, he, h]
    · simp only [fsLookup, he, if_false] at h
      simp [fsLookup, he, ih h]

theorem fsLookup_append_self (fs : List (String × Nat)) (q : String) (i : Nat)
    (h : fsLookup fs q = none) : fsLookup (fs ++ [(q, i)]) q = some i := by
  induction fs with
  | nil => simp [fsLookup]
  | cons e t ih =>
    by_cases he : e.1 = q
    · simp [fsLookup, he] at h
    · simp only [fsLookup, he, if_false] at h
      simp [fsLookup, he, ih h]

theorem fsLookup_remove_ne (fs : List (String × Nat)) (p q : String)
    (h : p ≠ q) : fsLookup (fsRemove fs p) q = fsLookup fs q := by
  induction fs with
  | nil => rfl
  | cons e t ih =>
    simp only [fsRemove, List.filter_cons, ne_eq, decide_not] at ih ⊢
    have hqp : q ≠ p := Ne.symm h
    by_cases he : e.1 = p
    · have hq : ¬(e.1 = q) := fun hh => h (he.symm.trans hh)
      simp [he, hq, h, fsLookup, ih]
    · by_cases hq : e.1 = q
      · simp [he, hq, hqp, fsLookup]
      · simp [he, hq, fsLookup, ih]

theorem dbLookup_upsert_self (db : List (String × String)) (p s : String) :
    dbLookup (dbUpsert db p s) p = some s := by
  unfold dbUpsert
  by_cases hf : (dbLookup db p).isSome
  · simp only [hf, if_true]
    induction db with
    | nil => simp [dbLookup] at hf
    | cons e t ih =>
      by_cases he : e.1 = p
      · simp [dbLookup, he]
      · simp only [dbLookup, he, if_false] at hf
        simp only [List.map_cons, if_neg he]
        simp only [dbLookup, he, if_false]
        exact ih hf
  · simp only [hf, if_false]
    induction db with
    | nil => simp [dbLookup]
    | cons e t ih =>
      by_cases he : e.1 = p
      · simp [dbLookup, he] at hf
      · simp only [dbLookup, he, if_false] at hf
        simp [dbLookup, he]
        exact ih hf

end Dedupe

namespace Dedupe

/-- C8 (amended): a group with no member under the master root is
skipped silently: the main pass leaves the entire state unchanged for
it (zero deletes, links, state-store writes and log lines) and the run
continues. -/
theorem c8_masterless_group_noop (env : Env) (args : Args) (sys : Sys)
    (pf : List (String × String)) (ms : List String)
    (h : chooseMaster ms args.primary_path = none) :
    processGroup env args sys pf ms = sys := by
  unfold processGroup
  rw [h]

/-- Witness for c8_masterless_group_noop at the concrete masterless
group of argsN. -/
theorem c8_masterless_group_noop_witness :
    chooseMaster ["/mnt/storage/video/a.txt", "/mnt/storage/music/a.txt"]
      argsN.primary_path = none ∧
    processGroup envA argsN sysA []
      ["/mnt/storage/video/a.txt", "/mnt/storage/music/a.txt"] = sysA :=
  ⟨by decide,
   c8_masterless_group_noop envA argsN sysA []
     ["/mnt/storage/video/a.txt", "/mnt/storage/music/a.txt"] (by decide)⟩

/-- C4 (amended): when the link step succeeds, the destination
directory has been ensured and a hardlink carrying the master inode
exists at the path obtained by joining the MASTER physical disk root
with the duplicate directory taken relative to the parent of the
primary path, and the duplicate status is LINKED.  That path is the
duplicate original physical location only when the duplicate resides
on the same disk as the master. -/
theorem c4_link_step_amended (env : Env) (sys : Sys)
    (mpp pdr dup primary rel : String) (ino : Nat)
    (hrel : relative_to (dirname dup) (dirname primary) = some rel)
    (hino : fsLookup sys.fs mpp = some ino)
    (htgt : fsLookup sys.fs (pyJoin (pyJoin pdr rel) (basename dup)) = none)
    (hw : env.writeFails sys.writeCount = false) :
    (link_file env sys mpp pdr dup primary).2 = none ∧
    pyJoin pdr rel ∈ (link_file env sys mpp pdr dup primary).1.dirs ∧
    fsLookup (link_file env sys mpp pdr dup primary).1.fs
      (pyJoin (pyJoin pdr rel) (basename dup)) = some ino ∧
    dbLookup (link_file env sys mpp pdr dup primary).1.db dup = some "LINKED" := by
  simp only [link_file, hrel, hino, htgt, hw, update_state_db, Option.isSome_none,
    Bool.false_eq_true, if_false]
  refine ⟨trivial, ?_, ?_, ?_⟩
  · by_cases hd : pyJoin pdr rel ∈ sys.dirs
    · simp [hd]
    · simp [hd]
  · exact fsLookup_append_self _ _ _ htgt
  · exact dbLookup_upsert_self _ _ _

end Dedupe

namespace Dedupe

/-- Witness for c4_link_step_amended at the concrete layout: master on
disk1, duplicate of it linked at the disk1 path derived from the
duplicate logical path. -/
theorem c4_link_step_amended_witness :
    relative_to (dirname "/mnt/storage/other/x/f.txt") (dirname "/mnt/storage/media") =
      some "other/x" ∧
    fsLookup sysA.fs "/mnt/pool/disk1/media/x/f.txt" = some 1 ∧
    ((link_file envA sysA "/mnt/pool/disk1/media/x/f.txt" "/mnt/pool/disk1"
        "/mnt/storage/other/x/f.txt" "/mnt/storage/media").2 = none ∧
     pyJoin "/mnt/pool/disk1" "other/x" ∈
       (link_file envA sysA "/mnt/pool/disk1/media/x/f.txt" "/mnt/pool/disk1"
         "/mnt/storage/other/x/f.txt" "/mnt/storage/media").1.dirs ∧
     fsLookup (link_file envA sysA "/mnt/pool/disk1/media/x/f.txt" "/mnt/pool/disk1"
         "/mnt/storage/other/x/f.txt" "/mnt/storage/media").1.fs
       (pyJoin (pyJoin "/mnt/pool/disk1" "other/x")
         (basename "/mnt/storage/other/x/f.txt")) = some 1 ∧
     dbLookup (link_file envA sysA "/mnt/pool/disk1/media/x/f.txt" "/mnt/pool/disk1"
         "/mnt/storage/other/x/f.txt" "/mnt/storage/media").1.db
       "/mnt/storage/other/x/f.txt" = some "LINKED") :=
  ⟨by decide, by decide,
   c4_link_step_amended envA sysA "/mnt/pool/disk1/media/x/f.txt" "/mnt/pool/disk1"
     "/mnt/storage/other/x/f.txt" "/mnt/storage/media" "other/x" 1
     (by decide) (by decide) (by decide) rfl⟩

end Dedupe

namespace Dedupe

/-- C9: when reading the state store fails, load_processed_files logs
the error and returns the empty mapping, and the run is not fatal: it
continues as if every file were UNTRACKED.  Concretely, at a
consolidated state with a stray PENDING entry, the run reports no
incomplete tasks (so no recovery is attempted) and the already LINKED
duplicate is reprocessed, its PENDING checkpoint being written anew. -/
theorem c9_read_failure_nonfatal (env : Env) (args : Args) (sys : Sys)
    (h : env.readFails = true) :
    (load_processed_files env sys).1 = [] ∧
    (load_processed_files env sys).2.log =
      sys.log ++ ["Could not read state from database: sqlite3.Error"] ∧
    (run_deduplication env args sys).2 = false ∧
    statusTraceFor (run_deduplication envR argsA sysMix).1
      "/mnt/storage/other/x/f.txt" = ["PENDING"] ∧
    "No incomplete tasks found." ∈ (run_deduplication envR argsA sysMix).1.log := by
  refine ⟨?_, ?_, ?_, by decide, by decide⟩
  · simp [load_processed_files, h]
  · simp [load_processed_files, h]
  · simp [run_deduplication, load_processed_files, h, mainAfterRecovery]

/-- Witness for c9_read_failure_nonfatal at the concrete environment
with failing reads. -/
theorem c9_read_failure_nonfatal_witness :
    envR.readFails = true ∧
    ((load_processed_files envR sysMix).1 = [] ∧
     (load_processed_files envR sysMix).2.log =
       sysMix.log ++ ["Could not read state from database: sqlite3.Error"] ∧
     (run_deduplication envR argsA sysMix).2 = false ∧
     statusTraceFor (run_deduplication envR argsA sysMix).1
       "/mnt/storage/other/x/f.txt" = ["PENDING"] ∧
     "No incomplete tasks found." ∈ (run_deduplication envR argsA sysMix).1.log) :=
  ⟨rfl, c9_read_failure_nonfatal envR argsA sysMix rfl⟩

end Dedupe

namespace Dedupe

theorem update_state_db_fs (env : Env) (sys : Sys) (p st : String) :
    (update_state_db env sys p st).fs = sys.fs := by
  unfold update_state_db
  split <;> rfl

theorem load_processed_files_fs (env : Env) (sys : Sys) :
    (load_processed_files env sys).2.fs = sys.fs := by
  unfold load_processed_files
  split <;> rfl

theorem link_file_preserves_lookup (env : Env) (sys : Sys)
    (mpp pdr dup pp mp : String) (ino : Nat)
    (h : fsLookup sys.fs mp = some ino) :
    fsLookup ((link_file env sys mpp pdr dup pp).1).fs mp = some ino := by
  simp only [link_file]
  cases hrel : relative_to (dirname dup) (dirname pp) with
  | none => exact h
  | some rel =>
    simp only
    cases hsrc : fsLookup sys.fs mpp with
    | none => exact h
    | some i =>
      by_cases htgt : (fsLookup sys.fs (pyJoin (pyJoin pdr rel) (basename dup))).isSome
      · simp only [htgt, if_true]
        exact h
      · simp only [htgt, if_false]
        rw [update_state_db_fs]
        exact fsLookup_append_left _ _ _ _ h

theorem processDup_preserves_master (env : Env) (args : Args) (sys : Sys)
    (pf : List (String × String)) (m mpp pdr dup mp : String) (ino : Nat)
    (hd : env.realpath dup ≠ mp ∨ dup = m ∨ dbLookup pf dup = some "LINKED")
    (h : fsLookup sys.fs mp = some ino) :
    fsLookup (processDup env args sys pf m mpp pdr dup).fs mp = some ino := by
  simp only [processDup]
  split
  · exact h
  · rename_i hc
    have hrp : env.realpath dup ≠ mp := by
      rcases hd with h1 | h1 | h1
      · exact h1
      · exact absurd (by simp [h1]) hc
      · exact absurd (by simp [h1]) hc
    split
    · split
      · rename_i hex
        split
        · apply link_file_preserves_lookup
          rw [update_state_db_fs]
          show fsLookup (fsRemove _ _) mp = some ino
          rw [fsLookup_remove_ne _ _ _ hrp, update_state_db_fs]
          exact h
        · apply link_file_preserves_lookup
          rw [update_state_db_fs]
          show fsLookup (fsRemove _ _) mp = some ino
          rw [fsLookup_remove_ne _ _ _ hrp, update_state_db_fs]
          exact h
      · rename_i hex
        split
        · apply link_file_preserves_lookup
          rw [update_state_db_fs]
          exact h
        · apply link_file_preserves_lookup
          rw [update_state_db_fs]
          exact h
    · exact h

end Dedupe

namespace Dedupe

theorem recoverOne_core (env : Env) (args : Args) (sys : Sys) (d : String) :
    ((recoverOne env args sys d).1).fs = sys.fs ∧
    ((recoverOne env args sys d).1).db = sys.db ∧
    ((recoverOne env args sys d).1).trace = sys.trace ∧
    ((recoverOne env args sys d).1).writeCount = sys.writeCount := by
  simp only [recoverOne]
  cases hm : file_to_set_map args.matchSets d with
  | none => exact ⟨rfl, rfl, rfl, rfl⟩
  | some ms =>
    cases ms with
    | nil => simp [recovery_master_select]
    | cons a t => simp [recovery_master_select]

theorem recoveryLoop_core (env : Env) (args : Args) (l : List String) :
    ∀ sys : Sys,
      ((recoveryLoop env args sys l).1).fs = sys.fs ∧
      ((recoveryLoop env args sys l).1).db = sys.db ∧
      ((recoveryLoop env args sys l).1).trace = sys.trace ∧
      ((recoveryLoop env args sys l).1).writeCount = sys.writeCount := by
  induction l with
  | nil => intro sys; exact ⟨rfl, rfl, rfl, rfl⟩
  | cons d rest ih =>
    intro sys
    have h1 := recoverOne_core env args sys d
    simp only [recoveryLoop]
    split
    · exact h1
    · have h2 := ih (recoverOne env args sys d).1
      exact ⟨h2.1.trans h1.1, h2.2.1.trans h1.2.1,
             h2.2.2.1.trans h1.2.2.1, h2.2.2.2.trans h1.2.2.2⟩

theorem foldl_preserve {α : Type} (P : Sys → Prop) (f : Sys → α → Sys) :
    ∀ (l : List α) (sys : Sys),
      (∀ s a, a ∈ l → P s → P (f s a)) → P sys → P (l.foldl f sys)
  | [], _, _, hs => hs
  | a :: t, sys, h, hs =>
    foldl_preserve P f t (f sys a)
      (fun s b hb => h s b (List.mem_cons_of_mem a hb))
      (h sys a (List.mem_cons_self a t) hs)

theorem processGroup_preserves_master (env : Env) (args : Args) (sys : Sys)
    (pf : List (String × String)) (ms : List String) (mfile mp : String) (ino : Nat)
    (hA : ∀ d ∈ ms, env.realpath d = mp → d = mfile)
    (hB : mfile ∈ ms → chooseMaster ms args.primary_path = some mfile)
    (h : fsLookup sys.fs mp = some ino) :
    fsLookup (processGroup env args sys pf ms).fs mp = some ino := by
  simp only [processGroup]
  cases hcm : chooseMaster ms args.primary_path with
  | none => exact h
  | some m =>
    dsimp only
    cases hgp : get_physical_path env m args.pool_root with
    | none => exact h
    | some pr =>
      apply foldl_preserve (fun s => fsLookup s.fs mp = some ino)
      · intro s d hdm hs
        apply processDup_preserves_master
        · by_cases hrp : env.realpath d = mp
          · right; left
            have hdm2 : d = mfile := hA d hdm hrp
            have : chooseMaster ms args.primary_path = some mfile := hB (hdm2 ▸ hdm)
            rw [hcm] at this
            exact hdm2.trans (Option.some_injective _ this).symm
          · left; exact hrp
        · exact hs
      · exact h

end Dedupe

namespace Dedupe

theorem mainAfterRecovery_preserves_master (env : Env) (args : Args) (sys : Sys)
    (mfile : String) (ino : Nat)
    (hA : ∀ s ∈ args.matchSets, ∀ d ∈ s,
      env.realpath d = env.realpath mfile → d = mfile)
    (hB : ∀ s ∈ args.matchSets, mfile ∈ s →
      chooseMaster s args.primary_path = some mfile)
    (h : fsLookup sys.fs (env.realpath mfile) = some ino) :
    fsLookup ((mainAfterRecovery env args sys).1).fs (env.realpath mfile) = some ino := by
  simp only [mainAfterRecovery]
  apply foldl_preserve (fun s => fsLookup s.fs (env.realpath mfile) = some ino)
  · intro s ms hms hs
    exact processGroup_preserves_master env args s _ ms mfile _ ino
      (hA ms hms) (hB ms hms) hs
  · show fsLookup (load_processed_files env _).2.fs _ = _
    rw [load_processed_files_fs]
    exact h

/-- C7: for all groups, the chosen master file is never deleted, moved
or modified by any run, in either pass.  Hypotheses: no manifest path
other than the master resolves to the master physical path (distinct
union paths are backed by distinct physical files), and the master is
not listed as a non-master member of another group (duplicate groups
are disjoint).  The master physical file entry then survives the whole
run, dry or real, crashed or completed. -/
theorem c7_master_immutable (env : Env) (args : Args) (sys : Sys)
    (g : List String) (mfile : String) (ino : Nat)
    (hg : g ∈ args.matchSets)
    (hm : chooseMaster g args.primary_path = some mfile)
    (hA : ∀ s ∈ args.matchSets, ∀ d ∈ s,
      env.realpath d = env.realpath mfile → d = mfile)
    (hB : ∀ s ∈ args.matchSets, mfile ∈ s →
      chooseMaster s args.primary_path = some mfile)
    (hfs : fsLookup sys.fs (env.realpath mfile) = some ino) :
    fsLookup ((run_deduplication env args sys).1).fs (env.realpath mfile) = some ino := by
  simp only [run_deduplication]
  split
  · split
    · apply mainAfterRecovery_preserves_master env args _ mfile ino hA hB
      show fsLookup (load_processed_files env _).2.fs _ = _
      rw [load_processed_files_fs]
      exact hfs
    · split
      · dsimp only
        rw [(recoveryLoop_core env args _ _).1]
        show fsLookup (load_processed_files env _).2.fs _ = _
        rw [load_processed_files_fs]
        exact hfs
      · apply mainAfterRecovery_preserves_master env args _ mfile ino hA hB
        rw [(recoveryLoop_core env args _ _).1]
        show fsLookup (load_processed_files env _).2.fs _ = _
        rw [load_processed_files_fs]
        exact hfs
  · split
    · apply mainAfterRecovery_preserves_master env args _ mfile ino hA hB
      show fsLookup (load_processed_files env _).2.fs _ = _
      rw [load_processed_files_fs]
      exact hfs
    · split
      · dsimp only
        rw [(recoveryLoop_core env args _ _).1]
        show fsLookup (load_processed_files env _).2.fs _ = _
        rw [load_processed_files_fs]
        exact hfs
      · apply mainAfterRecovery_preserves_master env args _ mfile ino hA hB
        rw [(recoveryLoop_core env args _ _).1]
        show fsLookup (load_processed_files env _).2.fs _ = _
        rw [load_processed_files_fs]
        exact hfs

end Dedupe

namespace Dedupe

/-- Witness for c7_master_immutable at the concrete layout. -/
theorem c7_master_immutable_witness :
    (["/mnt/storage/media/x/f.txt", "/mnt/storage/other/x/f.txt"] ∈ argsA.matchSets ∧
     chooseMaster ["/mnt/storage/media/x/f.txt", "/mnt/storage/other/x/f.txt"]
       argsA.primary_path = some "/mnt/storage/media/x/f.txt" ∧
     (∀ s ∈ argsA.matchSets, ∀ d ∈ s,
       envA.realpath d = envA.realpath "/mnt/storage/media/x/f.txt" →
         d = "/mnt/storage/media/x/f.txt") ∧
     (∀ s ∈ argsA.matchSets, "/mnt/storage/media/x/f.txt" ∈ s →
       chooseMaster s argsA.primary_path = some "/mnt/storage/media/x/f.txt") ∧
     fsLookup sysA.fs (envA.realpath "/mnt/storage/media/x/f.txt") = some 1) ∧
    fsLookup ((run_deduplication envA argsA sysA).1).fs
      (envA.realpath "/mnt/storage/media/x/f.txt") = some 1 :=
  ⟨⟨by decide, by decide, by decide, by decide, by decide⟩,
   c7_master_immutable envA argsA sysA
     ["/mnt/storage/media/x/f.txt", "/mnt/storage/other/x/f.txt"]
     "/mnt/storage/media/x/f.txt" 1
     (by decide) (by decide) (by decide) (by decide) (by decide)⟩

end Dedupe

namespace Dedupe

theorem load_processed_files_ok (env : Env) (sys : Sys)
    (hr : env.readFails = false) :
    load_processed_files env sys = (sys.db, sys) := by
  simp [load_processed_files, hr]

theorem processDup_skip (env : Env) (args : Args) (sys : Sys)
    (pf : List (String × String)) (m mpp pdr dup : String)
    (h : dup = m ∨ dbLookup pf dup = some "LINKED") :
    processDup env args sys pf m mpp pdr dup = sys := by
  rcases h with h1 | h1 <;> simp [processDup, h1]

theorem processGroup_noop (env : Env) (args : Args) (s : Sys)
    (pf : List (String × String)) (ms : List String)
    (hq : groupAllLinked env args pf ms = true) :
    (processGroup env args s pf ms).fs = s.fs ∧
    (processGroup env args s pf ms).db = s.db ∧
    (processGroup env args s pf ms).trace = s.trace := by
  simp only [processGroup]
  unfold groupAllLinked at hq
  cases hcm : chooseMaster ms args.primary_path with
  | none => exact ⟨rfl, rfl, rfl⟩
  | some m =>
    rw [hcm] at hq
    dsimp only at hq
    dsimp only
    cases hgp : get_physical_path env m args.pool_root with
    | none => exact ⟨rfl, rfl, rfl⟩
    | some pr =>
      rw [hgp] at hq
      dsimp only at hq
      have hall := List.all_eq_true.mp hq
      apply foldl_preserve (fun t => t.fs = s.fs ∧ t.db = s.db ∧ t.trace = s.trace)
      · intro t d hd ht
        have hskip := hall d hd
        have hor : d = m ∨ dbLookup pf d = some "LINKED" := by
          rcases (Bool.or_eq_true _ _).mp hskip with h1 | h1
          · left; exact of_decide_eq_true h1
          · right; exact of_decide_eq_true h1
        rw [processDup_skip env args t pf m pr.1 pr.2 d hor]
        exact ht
      · exact ⟨rfl, rfl, rfl⟩

end Dedupe

namespace Dedupe

theorem mainAfterRecovery_noop (env : Env) (args : Args) (sys0 : Sys)
    (hr : env.readFails = false)
    (hlk : ∀ ms ∈ args.matchSets, groupAllLinked env args sys0.db ms = true) :
    (mainAfterRecovery env args sys0).2 = false ∧
    ((mainAfterRecovery env args sys0).1).fs = sys0.fs ∧
    ((mainAfterRecovery env args sys0).1).db = sys0.db ∧
    ((mainAfterRecovery env args sys0).1).trace = sys0.trace := by
  simp only [mainAfterRecovery]
  rw [load_processed_files_ok env _ hr]
  dsimp only
  refine ⟨trivial, ?_⟩
  apply foldl_preserve (fun t => t.fs = sys0.fs ∧ t.db = sys0.db ∧ t.trace = sys0.trace)
  · intro s ms hms hs
    have hg := processGroup_noop env args s sys0.db ms (hlk ms hms)
    exact ⟨hg.1.trans hs.1, hg.2.1.trans hs.2.1, hg.2.2.trans hs.2.2⟩
  · exact ⟨rfl, rfl, rfl⟩

end Dedupe

namespace Dedupe

/-- C6 (amended): a run over a state whose store has no interrupted
entries and already records LINKED for every non-master member of each
group with a resolvable master mutates nothing: no filesystem change,
no state-store change, no committed write, and no crash.  In
particular a second run over the state left by a successful first run
is a no-op; the LINKED skips happen silently. -/
theorem c6_second_run_noop (env : Env) (args : Args) (sys : Sys)
    (hr : env.readFails = false)
    (hnd : ∀ e ∈ sys.db, e.2 ≠ "DELETED" ∧ e.2 ≠ "PENDING")
    (hlk : ∀ ms ∈ args.matchSets, groupAllLinked env args sys.db ms = true) :
    (run_deduplication env args sys).2 = false ∧
    ((run_deduplication env args sys).1).fs = sys.fs ∧
    ((run_deduplication env args sys).1).db = sys.db ∧
    ((run_deduplication env args sys).1).trace = sys.trace := by
  have hfil : sys.db.filter (fun e => e.2 = "DELETED" || e.2 = "PENDING") = [] := by
    apply List.filter_eq_nil_iff.mpr
    intro e he
    simp [(hnd e he).1, (hnd e he).2]
  simp only [run_deduplication]
  split
  · rw [load_processed_files_ok env _ hr]
    dsimp only
    rw [hfil]
    simp only [List.isEmpty_nil, if_true]
    exact mainAfterRecovery_noop env args _ hr hlk
  · rw [load_processed_files_ok env _ hr]
    dsimp only
    rw [hfil]
    simp only [List.isEmpty_nil, if_true]
    exact mainAfterRecovery_noop env args _ hr hlk

/-- Witness for c6_second_run_noop at the state left by the first
concrete run. -/
theorem c6_second_run_noop_witness :
    (envA.readFails = false ∧
     (∀ e ∈ sysRun1.db, e.2 ≠ "DELETED" ∧ e.2 ≠ "PENDING") ∧
     (∀ ms ∈ argsA.matchSets, groupAllLinked envA argsA sysRun1.db ms = true)) ∧
    ((run_deduplication envA argsA sysRun1).2 = false ∧
     ((run_deduplication envA argsA sysRun1).1).fs = sysRun1.fs ∧
     ((run_deduplication envA argsA sysRun1).1).db = sysRun1.db ∧
     ((run_deduplication envA argsA sysRun1).1).trace = sysRun1.trace) :=
  ⟨⟨rfl, by decide, by decide⟩,
   c6_second_run_noop envA argsA sysRun1 rfl (by decide) (by decide)⟩

end Dedupe

namespace Dedupe

theorem link_file_trace (env : Env) (sys : Sys)
    (mpp pdr dup pp : String)
    (hw : env.writeFails = fun _ => false) :
    ∃ u, ((link_file env sys mpp pdr dup pp).1).trace = sys.trace ++ u ∧
      (u = [] ∨ u = [(dup, "LINKED")]) := by
  simp only [link_file]
  cases hrel : relative_to (dirname dup) (dirname pp) with
  | none => exact ⟨[], by simp, Or.inl rfl⟩
  | some rel =>
    dsimp only
    cases hsrc : fsLookup sys.fs mpp with
    | none => exact ⟨[], by simp, Or.inl rfl⟩
    | some i =>
      by_cases htgt : (fsLookup sys.fs (pyJoin (pyJoin pdr rel) (basename dup))).isSome
      · simp only [htgt, if_true]
        exact ⟨[], by simp, Or.inl rfl⟩
      · simp only [htgt, if_false, update_state_db, hw, Bool.false_eq_true]
        exact ⟨[(dup, "LINKED")], by simp, Or.inr rfl⟩

theorem processDup_trace (env : Env) (args : Args) (sys : Sys)
    (pf : List (String × String)) (m mpp pdr dup : String)
    (hw : env.writeFails = fun _ => false) :
    ∃ u, (processDup env args sys pf m mpp pdr dup).trace = sys.trace ++ u ∧
      (∀ e ∈ u, e.1 = dup) ∧
      (u.map (fun e => e.2)) ∈ allowedTraces ∧
      ((dup = m ∨ dbLookup pf dup = some "LINKED") → u = []) := by
  simp only [processDup]
  split
  · exact ⟨[], by simp, by simp, by simp [allowedTraces], fun _ => rfl⟩
  · rename_i hcond
    have hno : ¬(dup = m ∨ dbLookup pf dup = some "LINKED") := by
      intro hor
      apply hcond
      rcases hor with h1 | h1 <;> simp [h1]
    split
    · simp only [update_state_db, hw, Bool.false_eq_true, if_false]
      split
      · rename_i hex
        obtain ⟨v, hv, hcase⟩ :=
          link_file_trace env _ mpp pdr dup args.primary_path hw
        split
        · dsimp only
          rw [hv]
          dsimp only
          refine ⟨[(dup, "PENDING"), (dup, "DELETED")] ++ v, by simp, ?_, ?_,
            fun hor => absurd hor hno⟩
          · rcases hcase with hc | hc <;> subst hc <;> simp
          · rcases hcase with hc | hc <;> subst hc <;> simp [allowedTraces]
        · rw [hv]
          dsimp only
          refine ⟨[(dup, "PENDING"), (dup, "DELETED")] ++ v, by simp, ?_, ?_,
            fun hor => absurd hor hno⟩
          · rcases hcase with hc | hc <;> subst hc <;> simp
          · rcases hcase with hc | hc <;> subst hc <;> simp [allowedTraces]
      · rename_i hex
        obtain ⟨v, hv, hcase⟩ :=
          link_file_trace env _ mpp pdr dup args.primary_path hw
        split
        · dsimp only
          rw [hv]
          dsimp only
          refine ⟨[(dup, "PENDING")] ++ v, by simp, ?_, ?_,
            fun hor => absurd hor hno⟩
          · rcases hcase with hc | hc <;> subst hc <;> simp
          · rcases hcase with hc | hc <;> subst hc <;> simp [allowedTraces]
        · rw [hv]
          dsimp only
          refine ⟨[(dup, "PENDING")] ++ v, by simp, ?_, ?_,
            fun hor => absurd hor hno⟩
          · rcases hcase with hc | hc <;> subst hc <;> simp
          · rcases hcase with hc | hc <;> subst hc <;> simp [allowedTraces]
    · exact ⟨[], by simp, by simp, by simp [allowedTraces], fun _ => rfl⟩

end Dedupe

namespace Dedupe

theorem dupFold_trace (env : Env) (args : Args)
    (pf : List (String × String)) (m mpp pdr d : String)
    (hw : env.writeFails = fun _ => false) :
    ∀ (files : List String) (sys : Sys), files.count d ≤ 1 →
      ∃ u, ((files.foldl
          (fun s f => processDup env args s pf m mpp pdr f) sys)).trace =
            sys.trace ++ u ∧
        traceFilter u d ∈ allowedTraces ∧
        (d ∉ files → traceFilter u d = []) ∧
        (dbLookup pf d = some "LINKED" → traceFilter u d = []) := by
  intro files
  induction files with
  | nil =>
    intro sys hcount
    exact ⟨[], by simp, by simp [traceFilter, allowedTraces], fun _ => rfl, fun _ => rfl⟩
  | cons f rest ih =>
    intro sys hcount
    have hcount' : rest.count d ≤ 1 := by
      have := List.count_cons d f rest
      omega
    obtain ⟨u₁, h1, hpaths, hmap, hskip⟩ :=
      processDup_trace env args sys pf m mpp pdr f hw
    obtain ⟨u₂, h2, hA2, hN2, hL2⟩ :=
      ih (processDup env args sys pf m mpp pdr f) hcount'
    refine ⟨u₁ ++ u₂, ?_, ?_, ?_, ?_⟩
    · rw [List.foldl_cons, h2, h1, List.append_assoc]
    · rw [traceFilter_append]
      by_cases hfd : f = d
      · subst hfd
        have hz : rest.count f = 0 := by
          have hself := List.count_cons_self f rest
          omega
        have hnotin : f ∉ rest := List.count_eq_zero.mp hz
        rw [hN2 hnotin, List.append_nil]
        rw [traceFilter_all_eq u₁ f hpaths]
        exact hmap
      · rw [traceFilter_all_ne u₁ d (fun e he => by rw [hpaths e he]; exact hfd)]
        rw [List.nil_append]
        exact hA2
    · intro hnotin
      rw [traceFilter_append]
      have hdf : d ≠ f := fun hh => hnotin (hh ▸ List.mem_cons_self f rest)
      rw [traceFilter_all_ne u₁ d (fun e he => by
        rw [hpaths e he]; exact fun hh => hdf hh.symm)]
      rw [List.nil_append]
      exact hN2 (fun hh => hnotin (List.mem_cons_of_mem f hh))
    · intro hlk
      rw [traceFilter_append, hL2 hlk, List.append_nil]
      by_cases hfd : f = d
      · rw [hskip (Or.inr (hfd ▸ hlk))]
        rfl
      · exact traceFilter_all_ne u₁ d (fun e he => by rw [hpaths e he]; exact hfd)

end Dedupe

namespace Dedupe

theorem processGroup_trace (env : Env) (args : Args) (sys : Sys)
    (pf : List (String × String)) (ms : List String) (d : String)
    (hw : env.writeFails = fun _ => false)
    (hcount : ms.count d ≤ 1) :
    ∃ u, (processGroup env args sys pf ms).trace = sys.trace ++ u ∧
      traceFilter u d ∈ allowedTraces ∧
      (d ∉ ms → traceFilter u d = []) ∧
      (dbLookup pf d = some "LINKED" → traceFilter u d = []) := by
  simp only [processGroup]
  cases hcm : chooseMaster ms args.primary_path with
  | none =>
    exact ⟨[], by simp, by simp [traceFilter, allowedTraces], fun _ => rfl, fun _ => rfl⟩
  | some m =>
    dsimp only
    cases hgp : get_physical_path env m args.pool_root with
    | none =>
      exact ⟨[], by simp, by simp [traceFilter, allowedTraces], fun _ => rfl, fun _ => rfl⟩
    | some pr =>
      obtain ⟨u, hu, hA, hN, hL⟩ := dupFold_trace env args pf m pr.1 pr.2 d hw ms
        { sys with log := sys.log ++ ["Processing set for master: " ++ m] } hcount
      exact ⟨u, by rw [hu], hA, hN, hL⟩

theorem mainFold_trace (env : Env) (args : Args)
    (pf : List (String × String)) (d : String)
    (hw : env.writeFails = fun _ => false) :
    ∀ (msl : List (List String)) (sys : Sys), occurrences msl d ≤ 1 →
      ∃ u, ((msl.foldl
          (fun s ms => processGroup env args s pf ms) sys)).trace =
            sys.trace ++ u ∧
        traceFilter u d ∈ allowedTraces ∧
        (occurrences msl d = 0 → traceFilter u d = []) ∧
        (dbLookup pf d = some "LINKED" → traceFilter u d = []) := by
  intro msl
  induction msl with
  | nil =>
    intro sys hocc
    exact ⟨[], by simp, by simp [traceFilter, allowedTraces], fun _ => rfl, fun _ => rfl⟩
  | cons ms rest ih =>
    intro sys hocc
    have hocc0 : ms.count d + occurrences rest d ≤ 1 := hocc
    obtain ⟨u₁, h1, hA1, hN1, hL1⟩ :=
      processGroup_trace env args sys pf ms d hw (by omega)
    obtain ⟨u₂, h2, hA2, hN2, hL2⟩ :=
      ih (processGroup env args sys pf ms) (by omega)
    refine ⟨u₁ ++ u₂, ?_, ?_, ?_, ?_⟩
    · rw [List.foldl_cons, h2, h1, List.append_assoc]
    · rw [traceFilter_append]
      by_cases hmem : d ∈ ms
      · have hpos : 0 < ms.count d := List.count_pos_iff.mpr hmem
        have hzero : occurrences rest d = 0 := by omega
        rw [hN2 hzero, List.append_nil]
        exact hA1
      · rw [hN1 hmem, List.nil_append]
        exact hA2
    · intro hz
      have hz1 : ms.count d = 0 := by
        unfold occurrences at hz
        omega
      have hz2 : occurrences rest d = 0 := by
        unfold occurrences at hz
        omega
      rw [traceFilter_append, hN1 (List.count_eq_zero.mp hz1), hN2 hz2]
      rfl
    · intro hlk
      rw [traceFilter_append, hL1 hlk, hL2 hlk]
      rfl

end Dedupe

namespace Dedupe

theorem mainAfterRecovery_trace (env : Env) (args : Args) (sys0 : Sys) (d : String)
    (hw : env.writeFails = fun _ => false)
    (hr : env.readFails = false)
    (hocc : occurrences args.matchSets d ≤ 1) :
    ∃ u, ((mainAfterRecovery env args sys0).1).trace = sys0.trace ++ u ∧
      traceFilter u d ∈ allowedTraces ∧
      (dbLookup sys0.db d = some "LINKED" → traceFilter u d = []) := by
  simp only [mainAfterRecovery]
  rw [load_processed_files_ok env _ hr]
  dsimp only
  obtain ⟨u, hu, hA, _, hL⟩ := mainFold_trace env args sys0.db d hw args.matchSets _ hocc
  exact ⟨u, by rw [hu], hA, hL⟩

/-- C5 (amended): with a reliable state store, for a duplicate path
occurring at most once in the manifest, the statuses a run commits for
it move only forward: from UNTRACKED they form one of the sequences
nothing, PENDING, PENDING-DELETED, PENDING-DELETED-LINKED or
PENDING-LINKED (DELETED being skipped exactly by the handler for an
already absent file), and a duplicate already recorded LINKED gets
nothing further committed (LINKED is absorbing). -/
theorem c5_forward_trace_amended (env : Env) (args : Args) (sys : Sys) (d : String)
    (hw : env.writeFails = fun _ => false)
    (hr : env.readFails = false)
    (hocc : occurrences args.matchSets d ≤ 1)
    (ht : sys.trace = []) :
    (dbLookup sys.db d = none →
      statusTraceFor (run_deduplication env args sys).1 d ∈ allowedTraces) ∧
    (dbLookup sys.db d = some "LINKED" →
      statusTraceFor (run_deduplication env args sys).1 d = []) := by
  simp only [run_deduplication, statusTraceFor]
  split
  · rw [load_processed_files_ok env _ hr]
    dsimp only
    split
    · obtain ⟨u, hu, hA, hL⟩ := mainAfterRecovery_trace env args
        { sys with log := sys.log ++
            ["Loaded " ++ toString sys.db.length ++ " entries from the state database."] ++
            ["--- Checking for incomplete tasks from previous runs... ---"] ++
            ["No incomplete tasks found."] } d hw hr hocc
      rw [hu]
      dsimp only
      rw [ht, List.nil_append]
      exact ⟨fun _ => hA, fun hlk => hL hlk⟩
    · have hcore := recoveryLoop_core env args
        ((sys.db.filter (fun e => e.2 = "DELETED" || e.2 = "PENDING")).map (fun e => e.1))
        { sys with log := sys.log ++
            ["Loaded " ++ toString sys.db.length ++ " entries from the state database."] ++
            ["--- Checking for incomplete tasks from previous runs... ---"] ++
            ["Found " ++ toString (sys.db.filter
              (fun e => e.2 = "DELETED" || e.2 = "PENDING")).length ++
             " files needing recovery."] }
      split
      · dsimp only
        rw [hcore.2.2.1]
        dsimp only
        rw [ht]
        exact ⟨fun _ => by simp [traceFilter, allowedTraces], fun _ => by simp [traceFilter]⟩
      · obtain ⟨u, hu, hA, hL⟩ := mainAfterRecovery_trace env args _ d hw hr hocc
        rw [hu, hcore.2.2.1]
        dsimp only
        rw [ht, List.nil_append]
        refine ⟨fun _ => hA, fun hlk => hL ?_⟩
        rw [hcore.2.1]
        exact hlk
  · rw [load_processed_files_ok env _ hr]
    dsimp only
    split
    · obtain ⟨u, hu, hA, hL⟩ := mainAfterRecovery_trace env args _ d hw hr hocc
      rw [hu]
      dsimp only
      rw [ht, List.nil_append]
      exact ⟨fun _ => hA, fun hlk => hL hlk⟩
    · have hcore := recoveryLoop_core env args
        ((sys.db.filter (fun e => e.2 = "DELETED" || e.2 = "PENDING")).map (fun e => e.1))
        { { sys with log := sys.log ++
              ["--- DRY RUN MODE: No files will be deleted or linked. ---"] } with
          log := sys.log ++
            ["--- DRY RUN MODE: No files will be deleted or linked. ---"] ++
            ["Loaded " ++ toString sys.db.length ++ " entries from the state database."] ++
            ["--- Checking for incomplete tasks from previous runs... ---"] ++
            ["Found " ++ toString (sys.db.filter
              (fun e => e.2 = "DELETED" || e.2 = "PENDING")).length ++
             " files needing recovery."] }
      split
      · dsimp only
        rw [hcore.2.2.1]
        dsimp only
        rw [ht]
        exact ⟨fun _ => by simp [traceFilter, allowedTraces], fun _ => by simp [traceFilter]⟩
      · obtain ⟨u, hu, hA, hL⟩ := mainAfterRecovery_trace env args _ d hw hr hocc
        rw [hu, hcore.2.2.1]
        dsimp only
        rw [ht, List.nil_append]
        refine ⟨fun _ => hA, fun hlk => hL ?_⟩
        rw [hcore.2.1]
        exact hlk

end Dedupe

namespace Dedupe

/-- Witness for c5_forward_trace_amended at the concrete layout where
the duplicate file is already absent. -/
theorem c5_forward_trace_amended_witness :
    ((envA.writeFails = fun _ => false) ∧ envA.readFails = false ∧
     occurrences argsA.matchSets "/mnt/storage/other/x/f.txt" ≤ 1 ∧
     sysGone.trace = []) ∧
    ((dbLookup sysGone.db "/mnt/storage/other/x/f.txt" = none →
      statusTraceFor (run_deduplication envA argsA sysGone).1
        "/mnt/storage/other/x/f.txt" ∈ allowedTraces) ∧
     (dbLookup sysGone.db "/mnt/storage/other/x/f.txt" = some "LINKED" →
      statusTraceFor (run_deduplication envA argsA sysGone).1
        "/mnt/storage/other/x/f.txt" = [])) :=
  ⟨⟨rfl, rfl, by decide, rfl⟩,
   c5_forward_trace_amended envA argsA sysGone "/mnt/storage/other/x/f.txt"
     rfl rfl (by decide) rfl⟩

end Dedupe
